import Mathlib

/-!
# NPUW serialization (`ov::npuw::s11n`)

A shallow embedding of `src/plugins/intel_npu/src/plugin/npuw/serialization.cpp`.

Conventions of the embedding

* a byte is a `Fin 256`; `std::string` is a list of bytes (no terminator is part of the value);
* `std::size_t` is a `Nat` below `2 ^ 64`; its memory image is the 8 bytes of the value,
  least significant first (x86-64, LP64, libstdc++); `sizeof(bool) = 1`;
* an `std::ostream` is the list of bytes written so far, an `std::istream` is the list of bytes
  not yet consumed together with its state (`good`, cleared when a read runs short);
* a C++ function `void read(std::istream&, T& var)` becomes a function of the stream and of the
  value `var` holds before the call, returning the stream and the value `var` holds afterwards;
* a call that throws, or whose behaviour is undefined, returns `none`.
-/

namespace ov.npuw.s11n

/-! ## Bytes and memory images -/

abbrev Byte := Fin 256

/-- A `std::string`: its `size()` characters. -/
abbrev Str := List Byte

/-- Memory image of an unsigned integer stored in `w` bytes, least significant byte first. -/
def toBytes : Nat → Nat → List Byte
  | 0, _ => []
  | w + 1, n => ⟨n % 256, Nat.mod_lt n (by decide)⟩ :: toBytes w (n / 256)

/-- The unsigned integer whose memory image is the given bytes. -/
def ofBytes : List Byte → Nat
  | [] => 0
  | b :: bs => b.val + 256 * ofBytes bs

/-- Largest value of `std::size_t` plus one. -/
def SIZE_MOD : Nat := 2 ^ 64

/-- The value of `std::string::max_size()` in libstdc++ on x86-64, `(PTRDIFF_MAX - 1) / 2`;
`resize` beyond it throws `std::length_error`. -/
def string_max_size : Nat := 2 ^ 62 - 1

/-! ## Streams -/

/-- An `std::ostream`: the bytes written so far. -/
abbrev OStream := List Byte

/-- `stream.write(ptr, n)`: appends the `n` bytes found at `ptr`; `mem` is the memory readable
from `ptr` on. -/
def OStream.write (stream : OStream) (mem : List Byte) (n : Nat) : OStream :=
  stream ++ mem.take n

/-- An `std::istream`: the bytes not yet consumed, and whether the stream is still good. -/
structure IStream where
  bytes : List Byte
  good : Bool
  deriving DecidableEq, Repr

/-- `stream.read(ptr, n)`: on a good stream the next `n` bytes (or as many as are left) are
stored at `ptr`, and the stream stops being good when fewer than `n` were left; a stream that is
not good extracts nothing. `buf` is the memory at `ptr` before the call, the second component the
memory afterwards. -/
def IStream.read (stream : IStream) (buf : List Byte) (n : Nat) : IStream × List Byte :=
  if stream.good then
    let got := stream.bytes.take n
    ({ bytes := stream.bytes.drop n, good := got.length == n }, got ++ buf.drop got.length)
  else
    (stream, buf)

/-! ## Primitive codec -/

/-- Modelled from the spec: the scalar `write` template of `serialization.hpp`, which is not
among the sources, at `T = std::size_t`: "write emits exactly `sizeof(T)` bytes from the value's
memory representation". -/
def write_size_t (stream : OStream) (var : Nat) : OStream :=
  stream.write (toBytes 8 var) 8

/-- Modelled from the spec: the scalar `read` template of `serialization.hpp`, which is not
among the sources, at `T = std::size_t`: "read fills a same-sized destination from the next
`sizeof(T)` bytes of the stream". -/
def read_size_t (stream : IStream) (var : Nat) : IStream × Nat :=
  let r := stream.read (toBytes 8 var) 8
  (r.1, ofBytes r.2)

/-- `std::string::resize(n)`: truncates, or pads with zero characters. -/
def resize (var : Str) (n : Nat) : Str :=
  var.take n ++ List.replicate (n - var.length) 0

/-- `void write(std::ostream&, const std::string&)`. -/
def write_string (stream : OStream) (var : Str) : OStream :=
  let var_size := var.length
  let stream := stream.write (toBytes 8 var_size) 8
  stream.write var var.length

/-- `void read(std::istream&, std::string&)` in an environment given by `alloc`: `alloc n`
tells whether `var.resize(n)` obtains the memory it asks for. `resize` throws
`std::length_error` when `n` exceeds `max_size()` and `std::bad_alloc` when the memory is not
to be had; the result is `none` in both cases. -/
def read_string_in (alloc : Nat → Bool) (stream : IStream) (var : Str) :
    Option (IStream × Str) :=
  let var_size := 0
  let r := stream.read (toBytes 8 var_size) 8
  let stream := r.1
  let var_size := ofBytes r.2
  if var_size ≤ string_max_size ∧ alloc var_size = true then
    let var := resize var var_size
    some (stream.read var var_size)
  else
    none

/-- `void read(std::istream&, std::string&)` where memory does not run out: `resize` fails
above `max_size()` only. -/
def read_string (stream : IStream) (var : Str) : Option (IStream × Str) :=
  read_string_in (fun _ => true) stream var

/-- Memory image of a `bool`. -/
def boolByte (b : Bool) : Byte := if b then 1 else 0

/-- `void write(std::ostream&, const bool&)`. -/
def write_bool (stream : OStream) (var : Bool) : OStream :=
  stream.write [boolByte var] 1

/-- `void read(std::istream&, bool&)`: a non-zero byte reads as `true`. -/
def read_bool (stream : IStream) (var : Bool) : IStream × Bool :=
  let r := stream.read [boolByte var] 1
  (r.1, r.2.headD 0 != 0)

/-- Size of a `std::streampos` object (an offset and a conversion state, 8 bytes each). -/
def sizeof_streampos : Nat := 16

/-- `void write(std::ostream&, const std::streampos&)`; `var` is the object representation
of the position. -/
def write_streampos (stream : OStream) (var : List Byte) : OStream :=
  stream.write var sizeof_streampos

/-- `void read(std::istream&, std::streampos&)`; `var` is the object representation of the
position. -/
def read_streampos (stream : IStream) (var : List Byte) : IStream × List Byte :=
  stream.read var sizeof_streampos

/-- Modelled from the spec: the `std::vector<T>` `write` template of `serialization.hpp`, which
is not among the sources, at `T = std::size_t` (an `ov::Shape`): "shape (sequence of dimension
scalars, length-prefixed)". -/
def write_vector (stream : OStream) (var : List Nat) : OStream :=
  let stream := write_size_t stream var.length
  var.foldl (fun stream el => write_size_t stream el) stream

/-- The element loop of `read_vector`: `n` further elements are appended to `var`. -/
def read_vector_loop : Nat → IStream → List Nat → IStream × List Nat
  | 0, stream, var => (stream, var)
  | n + 1, stream, var =>
    let r := read_size_t stream 0
    read_vector_loop n r.1 (var ++ [r.2])

/-- Modelled from the spec: the `std::vector<T>` `read` template of `serialization.hpp`, which
is not among the sources, at `T = std::size_t`: the length is read, then that many scalars. -/
def read_vector (stream : IStream) (_var : List Nat) : IStream × List Nat :=
  let r := read_size_t stream 0
  read_vector_loop r.2 r.1 []

/-- An implementation of `std::unordered_set<std::string>`: a set is the list of its elements
in iteration order, and the place a new element takes in that order is up to the
implementation (iteration order is unspecified). -/
structure UnorderedSet where
  insert : Str → List Str → List Str
  mem_insert : ∀ x xs y, y ∈ insert x xs ↔ y = x ∨ y ∈ xs

/-- Modelled from the spec: the `std::unordered_set<std::string>` `write` template of
`serialization.hpp`, which is not among the sources: "the name set (count + each name as
text)", the names in iteration order. -/
def write_unordered_set (stream : OStream) (var : List Str) : OStream :=
  let stream := write_size_t stream var.length
  var.foldl (fun stream el => write_string stream el) stream

/-- The element loop of `read_unordered_set`: `n` further strings are read into fresh
strings and inserted into `var`. -/
def read_unordered_set_loop (U : UnorderedSet) :
    Nat → IStream → List Str → Option (IStream × List Str)
  | 0, stream, var => some (stream, var)
  | n + 1, stream, var =>
    match read_string stream [] with
    | none => none
    | some r => read_unordered_set_loop U n r.1 (U.insert r.2 var)

/-- Modelled from the spec: the `std::unordered_set<std::string>` `read` template of
`serialization.hpp`, which is not among the sources: the count is read, then that many strings
are read and inserted. -/
def read_unordered_set (U : UnorderedSet) (stream : IStream) (_var : List Str) :
    Option (IStream × List Str) :=
  let r := read_size_t stream 0
  read_unordered_set_loop U r.2 r.1 []

/-! ## Spatial descriptor -/

/-- Modelled from the spec: `ov::npuw::compiled::Spatial::Param` of `spatial.hpp`, which is not
among the sources: "an index/dimension pair", both `std::size_t`. -/
structure Spatial.Param where
  idx : Nat
  dim : Nat
  deriving DecidableEq, Repr

/-- Modelled from the spec: `ov::npuw::compiled::Spatial` of `spatial.hpp`, which is not among
the sources: "a container of Param entries plus five scalar fields". -/
structure Spatial where
  params : List Spatial.Param
  range : Nat
  nway : Nat
  out_dim : Nat
  nway_iters : Nat
  tail_size : Nat
  deriving DecidableEq, Repr

/-- The scalars of a spatial descriptor are values of `std::size_t`. -/
def Spatial.wf (s : Spatial) : Prop :=
  s.params.length < SIZE_MOD ∧ (∀ q ∈ s.params, q.idx < SIZE_MOD ∧ q.dim < SIZE_MOD) ∧
  s.range < SIZE_MOD ∧ s.nway < SIZE_MOD ∧ s.out_dim < SIZE_MOD ∧ s.nway_iters < SIZE_MOD ∧
  s.tail_size < SIZE_MOD

/-- A default-constructed `Spatial::Param` (its scalars are read as zero). -/
def Spatial.Param.init : Spatial.Param := ⟨0, 0⟩

/-- A default-constructed `Spatial`. -/
def Spatial.init : Spatial := ⟨[], 0, 0, 0, 0, 0⟩

/-- `void write(std::ostream&, const ov::npuw::compiled::Spatial&)`. -/
def write_Spatial (stream : OStream) (var : Spatial) : OStream :=
  let stream := write_size_t stream var.params.length
  let stream := var.params.foldl
    (fun stream p =>
      let stream := write_size_t stream p.idx
      write_size_t stream p.dim)
    stream
  let stream := write_size_t stream var.range
  let stream := write_size_t stream var.nway
  let stream := write_size_t stream var.out_dim
  let stream := write_size_t stream var.nway_iters
  write_size_t stream var.tail_size

/-- The `for` loop of `read(std::istream&, Spatial&)`: `n` further iterations, each reading a
`Param` and appending it to `params`. -/
def read_Spatial_loop : Nat → IStream → List Spatial.Param → IStream × List Spatial.Param
  | 0, stream, params => (stream, params)
  | n + 1, stream, params =>
    let p := Spatial.Param.init
    let r := read_size_t stream p.idx
    let p := { p with idx := r.2 }
    let r := read_size_t r.1 p.dim
    let p := { p with dim := r.2 }
    read_Spatial_loop n r.1 (params ++ [p])

/-- The body of `read(std::istream&, Spatial&)` up to its closing brace: the stream, and the
local variable `spat`, after the last scalar was read. -/
def read_Spatial_spat (stream : IStream) : IStream × Spatial :=
  let spat := Spatial.init
  let params_size := 0
  let r := read_size_t stream params_size
  let params_size := r.2
  let l := read_Spatial_loop params_size r.1 spat.params
  let spat := { spat with params := l.2 }
  let r := read_size_t l.1 spat.range
  let spat := { spat with range := r.2 }
  let r := read_size_t r.1 spat.nway
  let spat := { spat with nway := r.2 }
  let r := read_size_t r.1 spat.out_dim
  let spat := { spat with out_dim := r.2 }
  let r := read_size_t r.1 spat.nway_iters
  let spat := { spat with nway_iters := r.2 }
  let r := read_size_t r.1 spat.tail_size
  let spat := { spat with tail_size := r.2 }
  (r.1, spat)

/-- `void read(std::istream&, ov::npuw::compiled::Spatial&)`: everything is read into the local
`spat`; no statement of the function stores to `var`. -/
def read_Spatial (stream : IStream) (var : Spatial) : IStream × Spatial :=
  let r := read_Spatial_spat stream
  (r.1, var)

/-! ## Tensor -/

/-- The external mapping between element types and their names, and the size of an element.
`ov::element::Type` is not among the sources, so it is a parameter: `to_string` is
`Type::to_string()`, `of_string` the constructor `Type(const std::string&)` (which throws on an
unknown name) and `size` is `Type::size()`, in bytes. -/
structure ElementType (τ : Type) where
  to_string : τ → Str
  of_string : Str → Option τ
  size : τ → Nat

/-- Modelled from the spec: the implementation object behind an initialized `ov::Tensor` (not
among the sources), "an element-type tag, a shape, a byte-size, and a raw payload", together
with its layout: `strides` are the byte strides of the dimensions and `memory` is the host memory
readable from `data()` on, which for a strided view also holds the gaps between its elements. -/
structure TensorImpl (τ : Type) where
  element_type : τ
  shape : List Nat
  strides : List Nat
  memory : List Byte
  deriving DecidableEq, Repr

/-- An `ov::Tensor`: `none` is the default-constructed (uninitialized) tensor, which converts
to `false`. -/
abbrev Tensor (τ : Type) := Option (TensorImpl τ)

/-- Modelled from the spec: the byte strides of a "contiguous tensor", "a multi-dimensional
buffer whose elements are laid out with no gaps", in row-major order. -/
def default_strides (size : Nat) : List Nat → List Nat
  | [] => []
  | _ :: ds => ds.prod * size :: default_strides size ds

/-- Modelled from the spec: the "byte-size" of a tensor of the given element size and shape,
the number of its elements times the size of one. -/
def byte_size_of (size : Nat) (shape : List Nat) : Nat := shape.prod * size

/-- Modelled from the spec: `ov::Tensor::get_byte_size()`, which is not among the sources. -/
def TensorImpl.get_byte_size {τ : Type} (E : ElementType τ) (t : TensorImpl τ) : Nat :=
  byte_size_of (E.size t.element_type) t.shape

/-- Modelled from the spec: `ov::Tensor::is_continuous()`, which is not among the sources, the
"contiguity check": the strides are those of the layout without gaps. -/
def TensorImpl.is_continuous {τ : Type} (E : ElementType τ) (t : TensorImpl τ) : Bool :=
  t.strides == default_strides (E.size t.element_type) t.shape

/-- Modelled from the spec: the constructor `ov::Tensor(type, shape)`, which is not among the
sources: "allocates a tensor of that type/shape", without gaps; the content of the allocation
is taken to be zero bytes. -/
def TensorImpl.alloc {τ : Type} (E : ElementType τ) (type : τ) (shape : List Nat) :
    TensorImpl τ :=
  { element_type := type, shape := shape, strides := default_strides (E.size type) shape,
    memory := List.replicate (byte_size_of (E.size type) shape) 0 }

/-- The bytes of the elements of a strided view in row-major order: the element with index
`(i₁, …, iₙ)` is the `size` bytes at offset `off + i₁ * s₁ + … + iₙ * sₙ` of `mem`. -/
def gather (size : Nat) (mem : List Byte) : List Nat → List Nat → Nat → List Byte
  | [], _, off => (mem.drop off).take size
  | d :: ds, strides, off =>
    (List.range d).flatMap fun i => gather size mem ds strides.tail (off + i * strides.headD 0)

/-- The logical (element-wise) content of a tensor, in row-major order. -/
def TensorImpl.content {τ : Type} (E : ElementType τ) (t : TensorImpl τ) : List Byte :=
  gather (E.size t.element_type) t.memory t.shape t.strides 0

/-- Modelled from the spec: `src.copy_to(dst)`, which is not among the sources, the
"copy-to-contiguous operation", for a destination of the same type and shape: the destination
receives the logical content of the source. -/
def TensorImpl.copy_to {τ : Type} (E : ElementType τ) (src dst : TensorImpl τ) : TensorImpl τ :=
  { dst with memory := src.content E }

/-- `void write(std::ostream&, const ov::Tensor&)`; `none` when `NPUW_ASSERT` fails. -/
def write_Tensor {τ : Type} (E : ElementType τ) (stream : OStream) (var : Tensor τ) :
    Option OStream :=
  match var with
  | none => some (write_bool stream false)
  | some v =>
    let stream := write_bool stream true
    let type_str := E.to_string v.element_type
    let stream := write_string stream type_str
    let stream := write_vector stream v.shape
    let stream := write_size_t stream (v.get_byte_size E)
    let tensor : Tensor τ :=
      if v.is_continuous E then
        var
      else
        -- Just copy strided tensor to a non-strided one
        some (v.copy_to E (TensorImpl.alloc E v.element_type v.shape))
    if tensor.isSome then
      some (stream.write v.memory (v.get_byte_size E))
    else
      none

/-- The local variable `tensor` of `write(std::ostream&, const ov::Tensor&)` when control
reaches `NPUW_ASSERT(tensor)`, for an initialized argument `v`. -/
def asserted_tensor {τ : Type} (E : ElementType τ) (v : TensorImpl τ) : Tensor τ :=
  if v.is_continuous E then
    some v
  else
    some (v.copy_to E (TensorImpl.alloc E v.element_type v.shape))

/-- `void read(std::istream&, ov::Tensor&)`; `none` when the element type name is unknown, when
a string cannot be resized, or when `byte_size` exceeds the allocation of the new tensor. -/
def read_Tensor {τ : Type} (E : ElementType τ) (stream : IStream) (var : Tensor τ) :
    Option (IStream × Tensor τ) :=
  let is_initialized := false
  let r := read_bool stream is_initialized
  let stream := r.1
  let is_initialized := r.2
  if !is_initialized then
    some (stream, var)
  else
    match read_string stream [] with
    | none => none
    | some r =>
      let stream := r.1
      let type_str := r.2
      match E.of_string type_str with
      | none => none
      | some type =>
        let r := read_vector stream []
        let stream := r.1
        let shape := r.2
        let byte_size := 0
        let r := read_size_t stream byte_size
        let stream := r.1
        let byte_size := r.2
        let v := TensorImpl.alloc E type shape
        if byte_size ≤ v.memory.length then
          let r := stream.read v.memory byte_size
          some (r.1, some { v with memory := r.2 })
        else
          none

/-- A valid tensor: its element type name is a `std::string`, its rank, dimensions and byte
size are values of `std::size_t`, and the `get_byte_size()` bytes at `data()` are readable. -/
def TensorImpl.valid {τ : Type} (E : ElementType τ) (t : TensorImpl τ) : Prop :=
  (E.to_string t.element_type).length ≤ string_max_size ∧
  t.shape.length < SIZE_MOD ∧ (∀ d ∈ t.shape, d < SIZE_MOD) ∧
  t.get_byte_size E < SIZE_MOD ∧ t.get_byte_size E ≤ t.memory.length

/-- Equality of a tensor `t` without gaps and a decoded tensor `r`: both are uninitialized, or
`r` is a tensor without gaps of the same element type and shape whose memory is the
`get_byte_size()` payload bytes of `t`, and whose logical content is that of `t`. -/
def Tensor.same {τ : Type} (E : ElementType τ) (t r : Tensor τ) : Prop :=
  match t, r with
  | none, none => True
  | some v, some w =>
    w.element_type = v.element_type ∧ w.shape = v.shape ∧ w.is_continuous E = true ∧
    w.memory = v.memory.take (v.get_byte_size E) ∧ w.content E = v.content E
  | _, _ => False

/-- The bytes a tensor is written as, after the flag: type name, shape, byte size, and the
`get_byte_size()` bytes found at `data()`. -/
def tensor_body {τ : Type} (E : ElementType τ) (v : TensorImpl τ) : List Byte :=
  toBytes 8 (E.to_string v.element_type).length ++ (E.to_string v.element_type
    ++ (toBytes 8 v.shape.length ++ (v.shape.flatMap (toBytes 8)
    ++ (toBytes 8 (v.get_byte_size E) ++ v.memory.take (v.get_byte_size E)))))

/-- The bytes a tensor is written as: the flag alone, or the flag and the body. -/
def tensor_bytes {τ : Type} (E : ElementType τ) (t : Tensor τ) : List Byte :=
  match t with
  | none => [0]
  | some v => 1 :: tensor_body E v

/-- The tensors the round trip is claimed for: uninitialized, or valid and without gaps. -/
def Tensor.plain {τ : Type} (E : ElementType τ) (t : Tensor τ) : Prop :=
  ∀ v, t = some v → v.valid E ∧ v.is_continuous E = true

/-! ## Graph-boundary descriptor -/

/-- The external mapping between partial shapes and their text. `ov::PartialShape` is not among
the sources, so it is a parameter: `to_string` is `PartialShape::to_string()` and `of_string`
the constructor `PartialShape(const std::string&)` (which throws on malformed text). -/
structure PartialShape (σ : Type) where
  to_string : σ → Str
  of_string : Str → Option σ

/-- What `write` reads of an `ov::Output<const ov::Node>`: its element type, its partial shape
and its names, in iteration order. -/
structure Output (τ σ : Type) where
  element_type : τ
  partial_shape : σ
  names : List Str
  deriving DecidableEq, Repr

/-- What is observable of an `ov::op::v0::Parameter`: the element type and partial shape it was
constructed with, its friendly name and the names of the tensor of its output 0. -/
structure Parameter (τ σ : Type) where
  element_type : τ
  partial_shape : σ
  friendly_name : Str
  names : List Str
  deriving DecidableEq, Repr

/-- `void write(std::ostream&, const ov::Output<const ov::Node>&)`. -/
def write_Output {τ σ : Type} (E : ElementType τ) (P : PartialShape σ) (stream : OStream)
    (var : Output τ σ) : OStream :=
  let stream := write_string stream (E.to_string var.element_type)
  let stream := write_string stream (P.to_string var.partial_shape)
  write_unordered_set stream var.names

/-- `void read(std::istream&, std::shared_ptr<ov::op::v0::Parameter>&)`; `none` when a
string cannot be resized, when a constructor throws, or when `*names.begin()` dereferences the
end iterator of an empty set. -/
def read_Parameter {τ σ : Type} (E : ElementType τ) (P : PartialShape σ) (U : UnorderedSet)
    (stream : IStream) (_var : Option (Parameter τ σ)) :
    Option (IStream × Option (Parameter τ σ)) :=
  match read_string stream [] with
  | none => none
  | some r =>
    let elem_type_str := r.2
    match read_string r.1 [] with
    | none => none
    | some r =>
      let part_shape_str := r.2
      match read_unordered_set U r.1 [] with
      | none => none
      | some r =>
        let stream := r.1
        let names := r.2
        match E.of_string elem_type_str, P.of_string part_shape_str with
        | some type, some shape =>
          match names.head? with
          | some first =>
            some (stream, some { element_type := type, partial_shape := shape,
                                 friendly_name := first, names := names })
          | none => none
        | _, _ => none

/-- What is observable of the `ov::op::v0::Constant` behind a reconstructed output: the
element type and the shape it was constructed with. -/
structure Constant (τ : Type) where
  element_type : τ
  shape : List Nat
  deriving DecidableEq, Repr

/-- An `ov::descriptor::Tensor`: element type, partial shape and names. -/
structure DescriptorTensor (τ σ : Type) where
  element_type : τ
  partial_shape : σ
  names : List Str
  deriving DecidableEq, Repr

/-- What is observable of an `ov::op::v0::Result`: the node it was constructed on, the
descriptor attached to its output 0 and its friendly name. -/
structure Result (τ σ : Type) where
  input : Constant τ
  output_tensor : DescriptorTensor τ σ
  friendly_name : Str
  deriving DecidableEq, Repr

/-- `void read(std::istream&, std::shared_ptr<ov::Node>&)`; `none` when a string cannot be
resized, when a constructor throws, or when `*names.begin()` dereferences the end iterator of
an empty set. -/
def read_Node {τ σ : Type} (E : ElementType τ) (P : PartialShape σ) (U : UnorderedSet)
    (stream : IStream) (_var : Option (Result τ σ)) :
    Option (IStream × Option (Result τ σ)) :=
  match read_string stream [] with
  | none => none
  | some r =>
    let elem_type_str := r.2
    match read_string r.1 [] with
    | none => none
    | some r =>
      let part_shape_str := r.2
      match read_unordered_set U r.1 [] with
      | none => none
      | some r =>
        let stream := r.1
        let names := r.2
        match E.of_string elem_type_str, P.of_string part_shape_str with
        | some type, some shape =>
          let res : Constant τ := { element_type := type, shape := [1] }
          let tensor_dummy : DescriptorTensor τ σ :=
            { element_type := type, partial_shape := shape, names := names }
          match names.head? with
          | some first =>
            some (stream, some { input := res, output_tensor := tensor_dummy,
                                 friendly_name := first })
          | none => none
        | _, _ => none

/-! ## Configuration object -/

/-- The external to-string/from-string transform of `::intel_npu::Config`, which is not among
the sources: `toString` is `Config::toString()`, and `fromString c str` is the configuration
`c` holds after `c.fromString(str)`, `none` when the text cannot be parsed. -/
structure Config (κ : Type) where
  toString : κ → Str
  fromString : κ → Str → Option κ

/-- `void write(std::ostream&, const ::intel_npu::Config&)`. -/
def write_Config {κ : Type} (C : Config κ) (stream : OStream) (var : κ) : OStream :=
  write_string stream (C.toString var)

/-- `void read(std::istream&, ::intel_npu::Config&)`; `none` when the string cannot be resized
or parsed. -/
def read_Config {κ : Type} (C : Config κ) (stream : IStream) (var : κ) :
    Option (IStream × κ) :=
  match read_string stream [] with
  | none => none
  | some r =>
    let str := r.2
    match C.fromString var str with
    | none => none
    | some var => some (r.1, var)

/-! ## Append-only writes -/

/-- The stream content `out` after a write is the prior content `p` followed by the bytes
`enc`: `p` is kept as the beginning of `out`, and `out` is not shorter than `p`. -/
def appends (p out enc : List Byte) : Prop :=
  out = p ++ enc ∧ out.take p.length = p ∧ p.length ≤ out.length

/-! ## Instances used to evaluate the codec on concrete inputs -/

/-- Two element types, enough to run the codec. -/
inductive DemoType where
  | u8
  | f32
  deriving DecidableEq, Repr

/-- The names `"u8"` and `"f32"` and the sizes 1 and 4 for `DemoType`. -/
def demoElementType : ElementType DemoType where
  to_string
    | .u8 => [117, 56]
    | .f32 => [102, 51, 50]
  of_string s :=
    if s = [117, 56] then some .u8 else if s = [102, 51, 50] then some .f32 else none
  size
    | .u8 => 1
    | .f32 => 4

/-- Partial shapes kept as their text, so that both directions of the mapping are the
identity. -/
def demoPartialShape : PartialShape Str where
  to_string s := s
  of_string s := some s

/-- A set implementation that places a new element first. -/
def frontInsert : UnorderedSet where
  insert x xs := if x ∈ xs then xs else x :: xs
  mem_insert x xs y := by
    by_cases h : x ∈ xs
    · simp only [h, if_true]
      constructor
      · exact Or.inr
      · rintro (rfl | hy)
        · exact h
        · exact hy
    · simp [h]

/-- A spatial descriptor with one parameter and five distinct scalars. -/
def demoSpatial : Spatial :=
  { params := [⟨1, 2⟩], range := 3, nway := 4, out_dim := 5, nway_iters := 6, tail_size := 7 }

/-- The left 2x2 block of a row-major 2x3 `u8` matrix with rows `1 2 3` and `4 5 6`, as a
strided view: shape `[2, 2]`, row stride 3 bytes, `data()` pointing at the `1`. -/
def demoView : TensorImpl DemoType :=
  { element_type := .u8, shape := [2, 2], strides := [3, 1], memory := [1, 2, 3, 4, 5, 6] }

/-- A row-major 2x2 `u8` matrix without gaps. -/
def demoMatrix : TensorImpl DemoType :=
  { element_type := .u8, shape := [2, 2], strides := [2, 1], memory := [1, 2, 3, 4] }

/-- A graph-boundary port of element type `u8`, partial shape `[?,3]` and names `a` and
`b`. -/
def demoPort : Output DemoType Str :=
  { element_type := .u8, partial_shape := [91, 63, 44, 51, 93], names := [[97], [98]] }

/-- Configurations kept as their canonical text, which `fromString` replaces. -/
def demoConfig : Config Str where
  toString c := c
  fromString _ str := some str

/-- The canonical text `device="NPU" mode="fast"`. -/
def demoConfigText : Str :=
  [100, 101, 118, 105, 99, 101, 61, 34, 78, 80, 85, 34, 32,
   109, 111, 100, 101, 61, 34, 102, 97, 115, 116, 34]

/-! ## Lemmas on memory images and streams -/

theorem toBytes_length (w n : Nat) : (toBytes w n).length = w := by
  induction w generalizing n with
  | zero => rfl
  | succ w ih => simp [toBytes, ih]

theorem ofBytes_toBytes (w n : Nat) : ofBytes (toBytes w n) = n % 256 ^ w := by
  induction w generalizing n with
  | zero => simp [toBytes, ofBytes, Nat.mod_one]
  | succ w ih =>
    simp only [toBytes, ofBytes, ih]
    rw [pow_succ, Nat.mul_comm (256 ^ w) 256, Nat.mod_mul]

theorem ofBytes_toBytes_size_t (n : Nat) (h : n < SIZE_MOD) : ofBytes (toBytes 8 n) = n := by
  rw [ofBytes_toBytes]
  exact Nat.mod_eq_of_lt (by simpa [SIZE_MOD] using h)

theorem OStream.write_exact (p mem : List Byte) : OStream.write p mem mem.length = p ++ mem := by
  simp [OStream.write]

theorem IStream.read_exact (a rest buf : List Byte) :
    IStream.read ⟨a ++ rest, true⟩ buf a.length = (⟨rest, true⟩, a ++ buf.drop a.length) := by
  simp [IStream.read]

theorem IStream.read_full (a rest buf : List Byte) (h : buf.length ≤ a.length) :
    IStream.read ⟨a ++ rest, true⟩ buf a.length = (⟨rest, true⟩, a) := by
  rw [IStream.read_exact, List.drop_eq_nil_of_le h, List.append_nil]

theorem write_size_t_eq (p : OStream) (n : Nat) : write_size_t p n = p ++ toBytes 8 n := by
  have h := OStream.write_exact p (toBytes 8 n)
  rw [toBytes_length] at h
  exact h

theorem read_size_t_append (n v : Nat) (rest : List Byte) (h : n < SIZE_MOD) :
    read_size_t ⟨toBytes 8 n ++ rest, true⟩ v = (⟨rest, true⟩, n) := by
  have h1 := IStream.read_full (toBytes 8 n) rest (toBytes 8 v) (by simp [toBytes_length])
  rw [toBytes_length] at h1
  simp [read_size_t, h1, ofBytes_toBytes_size_t n h]

theorem write_string_eq (p : OStream) (s : Str) :
    write_string p s = p ++ (toBytes 8 s.length ++ s) := by
  have h := OStream.write_exact p (toBytes 8 s.length)
  rw [toBytes_length] at h
  simp [write_string, h, OStream.write_exact]

theorem string_max_size_lt : string_max_size < SIZE_MOD := by decide

theorem resize_length (var : Str) (n : Nat) : (resize var n).length = n := by
  simp [resize]; omega

theorem read_string_append (s dest : Str) (rest : List Byte) (h : s.length ≤ string_max_size) :
    read_string ⟨toBytes 8 s.length ++ (s ++ rest), true⟩ dest = some (⟨rest, true⟩, s) := by
  have hlt : s.length < SIZE_MOD := lt_of_le_of_lt h string_max_size_lt
  have h1 := IStream.read_full (toBytes 8 s.length) (s ++ rest) (toBytes 8 0)
    (by simp [toBytes_length])
  rw [toBytes_length] at h1
  have h2 := IStream.read_full s rest (resize dest s.length) (by rw [resize_length])
  simp only [read_string, read_string_in, h1, ofBytes_toBytes_size_t _ hlt, h, and_self,
    if_true, h2]

theorem foldl_append_flatMap {α : Type} (f : α → List Byte) (l : List α) (p : List Byte) :
    l.foldl (fun stream x => stream ++ f x) p = p ++ l.flatMap f := by
  induction l generalizing p with
  | nil => simp
  | cons x xs ih => simp [List.foldl_cons, ih, List.flatMap_cons, List.append_assoc]

theorem read_bool_cons (b : Byte) (rest : List Byte) (v : Bool) :
    read_bool ⟨b :: rest, true⟩ v = (⟨rest, true⟩, b != 0) := by
  simp [read_bool, IStream.read]

theorem write_bool_eq (p : OStream) (b : Bool) : write_bool p b = p ++ [boolByte b] := by
  simp [write_bool, OStream.write]

/-! ## Text -/

/-- C5: for every string `s` of length `N` and every prior content `p`, `write(stream, s)`
appends exactly `8 + N` bytes: the 8-byte memory image of `N` (which reads back as `N` as a
`std::size_t`) followed by the `N` bytes of `s` unchanged; the stream ends with the last byte of
`s`, there is no terminator. -/
theorem text_layout (p : OStream) (s : Str) :
    write_string p s = p ++ (toBytes 8 s.length ++ s) ∧
    (write_string p s).length = p.length + (8 + s.length) ∧
    (toBytes 8 s.length).length = 8 ∧ ofBytes (toBytes 8 s.length) = s.length % SIZE_MOD := by
  refine ⟨write_string_eq p s, ?_, toBytes_length _ _, ofBytes_toBytes _ _⟩
  simp [write_string_eq, toBytes_length]

/-- C4: for every string `s` (of a length a `std::string` can have), every prior value `dest`
of the destination and every byte sequence `rest`, reading a string from the stream
`write(s) ++ rest` succeeds, returns exactly `s`, and leaves a good stream whose unread bytes are
exactly `rest`: `8 + N` bytes are consumed, whatever the content of `s`. -/
theorem text_round_trip (s dest : Str) (rest : List Byte) (h : s.length ≤ string_max_size) :
    read_string ⟨write_string [] s ++ rest, true⟩ dest = some (⟨rest, true⟩, s) ∧
    (write_string [] s ++ rest).length = (8 + s.length) + rest.length := by
  constructor
  · rw [write_string_eq, List.nil_append, List.append_assoc]
    exact read_string_append s dest rest h
  · simp [write_string_eq, toBytes_length]
    omega

/-- Witness of C4: the empty string, and a string with a zero byte, in front of other data. -/
theorem text_round_trip_witness :
    (read_string ⟨write_string [] [] ++ [7], true⟩ [9, 9, 9] = some (⟨[7], true⟩, []) ∧
      (write_string [] [] ++ [7]).length = (8 + ([] : Str).length) + [(7 : Byte)].length) ∧
    (read_string ⟨write_string [] [0, 65, 0] ++ [7], true⟩ [9] = some (⟨[7], true⟩, [0, 65, 0]) ∧
      (write_string [] [0, 65, 0] ++ [7]).length
        = (8 + ([0, 65, 0] : Str).length) + [(7 : Byte)].length) :=
  ⟨text_round_trip [] [9, 9, 9] [7] (by decide), text_round_trip [0, 65, 0] [9] [7] (by decide)⟩

/-! ## Spatial descriptor -/

/-- The bytes of one `Param`: its `idx`, then its `dim`. -/
theorem write_Param_eq :
    (fun (stream : OStream) (p : Spatial.Param) =>
      let stream := write_size_t stream p.idx
      write_size_t stream p.dim)
    = fun stream p => stream ++ (toBytes 8 p.idx ++ toBytes 8 p.dim) := by
  funext stream p
  simp [write_size_t_eq, List.append_assoc]

theorem write_Spatial_eq (p : OStream) (s : Spatial) :
    write_Spatial p s
      = p ++ (toBytes 8 s.params.length
          ++ (s.params.flatMap (fun q => toBytes 8 q.idx ++ toBytes 8 q.dim)
          ++ (toBytes 8 s.range ++ (toBytes 8 s.nway ++ (toBytes 8 s.out_dim
          ++ (toBytes 8 s.nway_iters ++ toBytes 8 s.tail_size)))))) := by
  simp only [write_Spatial, write_Param_eq, foldl_append_flatMap, write_size_t_eq,
    List.append_assoc]

/-- C8: for every spatial descriptor `s` with `k` parameters and every prior content `p`, the
bytes appended by `write(stream, s)` are exactly the scalar encodings of `k`, then of `idx` and
`dim` of each parameter in list order, then of `range`, `nway`, `out_dim`, `nway_iters` and
`tail_size`, and nothing else. -/
theorem spatial_layout (p : OStream) (s : Spatial) :
    write_Spatial p s
      = p ++ (write_size_t [] s.params.length
          ++ (s.params.flatMap (fun q => write_size_t [] q.idx ++ write_size_t [] q.dim)
          ++ (write_size_t [] s.range ++ (write_size_t [] s.nway ++ (write_size_t [] s.out_dim
          ++ (write_size_t [] s.nway_iters ++ write_size_t [] s.tail_size)))))) := by
  simp only [write_Spatial_eq, write_size_t_eq, List.nil_append]

/-- Every well-formed `Param` list is read back by the loop, up to the bytes that follow. -/
theorem read_Spatial_loop_append (ps acc : List Spatial.Param) (rest : List Byte)
    (h : ∀ q ∈ ps, q.idx < SIZE_MOD ∧ q.dim < SIZE_MOD) :
    read_Spatial_loop ps.length
        ⟨ps.flatMap (fun q => toBytes 8 q.idx ++ toBytes 8 q.dim) ++ rest, true⟩ acc
      = (⟨rest, true⟩, acc ++ ps) := by
  induction ps generalizing acc with
  | nil => simp [read_Spatial_loop]
  | cons q qs ih =>
    have hq := h q (List.mem_cons_self _ _)
    have hqs : ∀ r ∈ qs, r.idx < SIZE_MOD ∧ r.dim < SIZE_MOD :=
      fun r hr => h r (List.mem_cons_of_mem _ hr)
    simp only [List.length_cons, read_Spatial_loop, List.flatMap_cons, List.append_assoc,
      read_size_t_append _ _ _ hq.1, read_size_t_append _ _ _ hq.2]
    rw [ih _ hqs]
    simp

/-- The local `spat` of the reader does receive the written descriptor, and the reader stops
exactly where the encoding ends. -/
theorem read_Spatial_spat_append (s : Spatial) (rest : List Byte) (h : s.wf) :
    read_Spatial_spat ⟨write_Spatial [] s ++ rest, true⟩ = (⟨rest, true⟩, s) := by
  obtain ⟨hk, hp, h1, h2, h3, h4, h5⟩ := h
  simp only [read_Spatial_spat, write_Spatial_eq, List.nil_append, List.append_assoc,
    read_size_t_append _ _ _ hk, read_Spatial_loop_append _ _ _ hp, Spatial.init,
    read_size_t_append _ _ _ h1, read_size_t_append _ _ _ h2, read_size_t_append _ _ _ h3,
    read_size_t_append _ _ _ h4, read_size_t_append _ _ _ h5, List.nil_append]

/-- C1 (the code departs from it): `read(stream, dest)` decodes the written descriptor into its
local `spat` and returns without storing it, so `dest` keeps the value it had before the call.
On the bytes of `demoSpatial` a default-constructed `dest` stays default-constructed, although
the local `spat` equals `demoSpatial` and the whole encoding was consumed. -/
theorem spatial_read_discards_result :
    (read_Spatial ⟨write_Spatial [] demoSpatial, true⟩ Spatial.init).2 = Spatial.init ∧
    (read_Spatial ⟨write_Spatial [] demoSpatial, true⟩ Spatial.init).2 ≠ demoSpatial ∧
    read_Spatial_spat ⟨write_Spatial [] demoSpatial, true⟩ = (⟨[], true⟩, demoSpatial) := by
  refine ⟨rfl, by decide, ?_⟩
  have h := read_Spatial_spat_append demoSpatial [] (by simp [Spatial.wf, demoSpatial, SIZE_MOD])
  simpa using h

/-- Whatever the stream holds, the reader returns the destination as it received it. -/
theorem read_Spatial_keeps_var (stream : IStream) (var : Spatial) :
    (read_Spatial stream var).2 = var := rfl

/-! ## Tensor -/

theorem write_vector_eq (p : OStream) (l : List Nat) :
    write_vector p l = p ++ (toBytes 8 l.length ++ l.flatMap (toBytes 8)) := by
  have h : (fun (stream : OStream) (el : Nat) => write_size_t stream el)
      = fun stream el => stream ++ toBytes 8 el := by
    funext stream el
    exact write_size_t_eq stream el
  simp only [write_vector, h, foldl_append_flatMap, write_size_t_eq, List.append_assoc]

theorem read_vector_loop_append (l acc : List Nat) (rest : List Byte)
    (h : ∀ d ∈ l, d < SIZE_MOD) :
    read_vector_loop l.length ⟨l.flatMap (toBytes 8) ++ rest, true⟩ acc
      = (⟨rest, true⟩, acc ++ l) := by
  induction l generalizing acc with
  | nil => simp [read_vector_loop]
  | cons d ds ih =>
    have hd := h d (List.mem_cons_self _ _)
    have hds : ∀ e ∈ ds, e < SIZE_MOD := fun e he => h e (List.mem_cons_of_mem _ he)
    simp only [List.length_cons, read_vector_loop, List.flatMap_cons, List.append_assoc,
      read_size_t_append _ _ _ hd]
    rw [ih _ hds]
    simp

theorem read_vector_append (l var : List Nat) (rest : List Byte) (hl : l.length < SIZE_MOD)
    (h : ∀ d ∈ l, d < SIZE_MOD) :
    read_vector ⟨toBytes 8 l.length ++ (l.flatMap (toBytes 8) ++ rest), true⟩ var
      = (⟨rest, true⟩, l) := by
  simp only [read_vector, read_size_t_append _ _ _ hl, read_vector_loop_append _ _ _ h,
    List.nil_append]

theorem write_Tensor_none {τ : Type} (E : ElementType τ) (p : OStream) :
    write_Tensor E p none = some (p ++ [0]) := by
  simp [write_Tensor, write_bool_eq, boolByte]

theorem write_Tensor_some {τ : Type} (E : ElementType τ) (p : OStream) (v : TensorImpl τ) :
    write_Tensor E p (some v) = some (p ++ (1 :: tensor_body E v)) := by
  simp only [write_Tensor, write_bool_eq, write_string_eq, write_vector_eq, write_size_t_eq,
    boolByte, OStream.write, tensor_body]
  split <;> simp

theorem read_Tensor_body {τ : Type} (E : ElementType τ) (v : TensorImpl τ) (rest : List Byte)
    (dest : Tensor τ) (hE : E.of_string (E.to_string v.element_type) = some v.element_type)
    (hv : v.valid E) :
    read_Tensor E ⟨1 :: (tensor_body E v ++ rest), true⟩ dest
      = some (⟨rest, true⟩, some { TensorImpl.alloc E v.element_type v.shape with
          memory := v.memory.take (v.get_byte_size E) }) := by
  obtain ⟨hn, hr, hd, hb, hm⟩ := hv
  have hlen : (v.memory.take (v.get_byte_size E)).length = v.get_byte_size E := by
    rw [List.length_take]; omega
  have hread := IStream.read_full (v.memory.take (v.get_byte_size E)) rest
    (List.replicate (v.get_byte_size E) 0) (by simp [hlen])
  rw [hlen] at hread
  have h10 : ((1 : Byte) != 0) = true := by decide
  unfold read_Tensor
  simp only [read_bool_cons, h10, Bool.not_true, Bool.false_eq_true, if_false]
  unfold tensor_body
  simp only [List.append_assoc]
  rw [read_string_append _ _ _ hn]
  simp only [hE]
  rw [read_vector_append _ _ _ hr hd]
  simp only []
  rw [read_size_t_append _ _ _ hb]
  have hmem : (TensorImpl.alloc E v.element_type v.shape).memory
      = List.replicate (v.get_byte_size E) 0 := rfl
  simp only [hmem, hread, List.length_replicate, le_refl, if_true]

/-- Consecutive chunks of `c` bytes, `d` of them, make up the first `d * c` bytes. -/
theorem flatMap_chunks (c : Nat) (l : List Byte) (d : Nat) :
    (List.range d).flatMap (fun i => (l.drop (i * c)).take c) = l.take (d * c) := by
  induction d with
  | zero => simp
  | succ d ih =>
    rw [List.range_succ, List.flatMap_append, ih, Nat.succ_mul, List.take_add]
    simp

/-- With the strides of the layout without gaps, the elements in row-major order are the
bytes of the memory in order. -/
theorem gather_default_strides (size : Nat) (mem : List Byte) (shape : List Nat) (off : Nat) :
    gather size mem shape (default_strides size shape) off
      = (mem.drop off).take (byte_size_of size shape) := by
  induction shape generalizing off with
  | nil => simp [gather, byte_size_of]
  | cons d ds ih =>
    have h : ∀ i, gather size mem ds (default_strides size ds) (off + i * (ds.prod * size))
        = ((mem.drop off).drop (i * (ds.prod * size))).take (ds.prod * size) := by
      intro i
      rw [ih, List.drop_drop, byte_size_of]
    simp only [gather, default_strides, List.tail_cons, List.headD_cons, h, flatMap_chunks,
      byte_size_of, List.prod_cons, Nat.mul_assoc]

/-- The logical content of a tensor without gaps is its payload, the `get_byte_size()` bytes
at `data()`. -/
theorem content_of_continuous {τ : Type} (E : ElementType τ) (v : TensorImpl τ)
    (hc : v.is_continuous E = true) : v.content E = v.memory.take (v.get_byte_size E) := by
  have hs : v.strides = default_strides (E.size v.element_type) v.shape := by
    simpa [TensorImpl.is_continuous] using hc
  rw [TensorImpl.content, hs, gather_default_strides, List.drop_zero, TensorImpl.get_byte_size]

theorem write_Tensor_eq {τ : Type} (E : ElementType τ) (p : OStream) (t : Tensor τ) :
    write_Tensor E p t = some (p ++ tensor_bytes E t) := by
  cases t with
  | none => exact write_Tensor_none E p
  | some v => exact write_Tensor_some E p v

theorem read_Tensor_false {τ : Type} (E : ElementType τ) (rest : List Byte) (dest : Tensor τ) :
    read_Tensor E ⟨0 :: rest, true⟩ dest = some (⟨rest, true⟩, dest) := by
  have h00 : ((0 : Byte) != 0) = false := by decide
  unfold read_Tensor
  simp only [read_bool_cons, h00, Bool.not_false, if_true]

theorem alloc_is_continuous {τ : Type} (E : ElementType τ) (type : τ) (shape : List Nat)
    (mem : List Byte) :
    TensorImpl.is_continuous E { TensorImpl.alloc E type shape with memory := mem } = true := by
  simp [TensorImpl.is_continuous, TensorImpl.alloc]

/-- Decoding the bytes of a plain tensor, followed by any bytes `rest`, into a fresh destination
stops at `rest` and yields the tensor. -/
theorem read_tensor_bytes {τ : Type} (E : ElementType τ)
    (hE : ∀ ty, E.of_string (E.to_string ty) = some ty) (t : Tensor τ) (ht : t.plain E)
    (rest : List Byte) :
    ∃ r, read_Tensor E ⟨tensor_bytes E t ++ rest, true⟩ none = some (⟨rest, true⟩, r) ∧
      Tensor.same E t r ∧ ((∀ v, t = some v → v.memory.length = v.get_byte_size E) → r = t) := by
  cases t with
  | none =>
    exact ⟨none, read_Tensor_false E rest none, trivial, fun _ => rfl⟩
  | some v =>
    obtain ⟨hv, hc⟩ := ht v rfl
    refine ⟨_, read_Tensor_body E v rest none (hE _) hv, ?_, ?_⟩
    · refine ⟨rfl, rfl, alloc_is_continuous E _ _ _, rfl, ?_⟩
      rw [content_of_continuous E _ (alloc_is_continuous E _ _ _), content_of_continuous E v hc]
      simp [TensorImpl.get_byte_size, TensorImpl.alloc, List.take_take]
    · intro hx
      have hs : v.strides = default_strides (E.size v.element_type) v.shape := by
        simpa [TensorImpl.is_continuous] using hc
      have hm : v.memory.take (v.get_byte_size E) = v.memory := by
        rw [← hx v rfl, List.take_length]
      cases v with
      | mk ty sh st mem =>
        simp only [TensorImpl.alloc, TensorImpl.get_byte_size] at hs hm ⊢
        rw [hm, hs]

/-- C6: for every uninitialized tensor and every prior content `p`, `write(stream, tensor)`
does what `write(stream, false)` does: it appends exactly one byte, the zero byte that encodes
`false`, and no type name, shape, byte size or payload. -/
theorem uninitialized_tensor_encoding {τ : Type} (E : ElementType τ) (p : OStream) :
    write_Tensor E p (none : Tensor τ) = some (write_bool p false) ∧
    write_bool p false = p ++ [0] ∧ (write_bool p false).length = p.length + 1 := by
  refine ⟨?_, ?_, ?_⟩ <;> simp [write_Tensor, write_bool_eq, boolByte]

/-- C7 as stated fails: on a stream holding the flag `false`, a destination that held the
matrix `demoMatrix` before the call still holds it afterwards; it is not empty. -/
theorem false_flag_keeps_destination :
    read_Tensor demoElementType ⟨[0], true⟩ (some demoMatrix)
      = some (⟨[], true⟩, some demoMatrix) ∧
    (some demoMatrix : Tensor DemoType) ≠ none :=
  ⟨read_Tensor_false demoElementType [] (some demoMatrix), by simp⟩

/-- C7 amended: for every stream whose next byte encodes `false` and every value `dest` of the
destination before the call, `read(stream, dest)` consumes exactly the flag byte, returns, and
leaves `dest` as it was; so a default-constructed destination stays empty. -/
theorem tensor_read_false_flag {τ : Type} (E : ElementType τ) (rest : List Byte)
    (dest : Tensor τ) :
    read_Tensor E ⟨boolByte false :: rest, true⟩ dest = some (⟨rest, true⟩, dest) ∧
    read_Tensor E ⟨boolByte false :: rest, true⟩ none = some (⟨rest, true⟩, none) :=
  ⟨read_Tensor_false E rest dest, read_Tensor_false E rest none⟩

/-- C2 (the code departs from it): the strided view `demoView` is valid and has the logical
content `1 2 4 5`, but `write(stream, tensor)` emits after the byte size the four bytes
`1 2 3 4` found at `data()`: the copy without gaps is made and then not used. Decoding yields
the payload `1 2 3 4`. -/
theorem strided_tensor_written_raw :
    demoView.valid demoElementType ∧
    demoView.is_continuous demoElementType = false ∧
    demoView.content demoElementType = [1, 2, 4, 5] ∧
    write_Tensor demoElementType [] (some demoView)
      = some (write_bool [] true ++ write_string [] [117, 56] ++ write_vector [] [2, 2]
          ++ write_size_t [] 4 ++ [1, 2, 3, 4]) ∧
    read_Tensor demoElementType
        ⟨write_bool [] true ++ write_string [] [117, 56] ++ write_vector [] [2, 2]
          ++ write_size_t [] 4 ++ [1, 2, 3, 4], true⟩ none
      = some (⟨[], true⟩, some { element_type := .u8, shape := [2, 2], strides := [2, 1],
                                 memory := [1, 2, 3, 4] }) := by
  refine ⟨⟨by decide, by decide, by decide, by decide, by decide⟩, by decide, by decide,
    by decide, by decide⟩

theorem demoElementType_inverse (ty : DemoType) :
    demoElementType.of_string (demoElementType.to_string ty) = some ty := by
  cases ty <;> rfl

theorem demoMatrix_plain : Tensor.plain demoElementType (some demoMatrix) := by
  intro v hv
  cases hv
  exact ⟨⟨by decide, by decide, by decide, by decide, by decide⟩, by decide⟩

theorem none_plain {τ : Type} (E : ElementType τ) : Tensor.plain E (none : Tensor τ) := by
  intro v hv
  cases hv

/-- C3: for every tensor `t` that is uninitialized, or valid and without gaps, and an element
type mapping whose `of_string` inverts `to_string`, writing `t` succeeds and reading the written
bytes into a default-constructed destination consumes them all and yields a tensor equal to `t`:
empty when `t` is empty, otherwise of the same element type and shape and holding the
`get_byte_size()` payload bytes of `t` (so the very tensor `t` when `t` owns just its payload). -/
theorem tensor_round_trip {τ : Type} (E : ElementType τ)
    (hE : ∀ ty, E.of_string (E.to_string ty) = some ty) (t : Tensor τ) (ht : t.plain E) :
    ∃ out r, write_Tensor E [] t = some out ∧
      read_Tensor E ⟨out, true⟩ none = some (⟨[], true⟩, r) ∧
      Tensor.same E t r ∧ (t = none → r = none) ∧
      ((∀ v, t = some v → v.memory.length = v.get_byte_size E) → r = t) := by
  obtain ⟨r, hr, hs, hx⟩ := read_tensor_bytes E hE t ht []
  refine ⟨tensor_bytes E t, r, ?_, ?_, hs, ?_, hx⟩
  · rw [write_Tensor_eq, List.nil_append]
  · rw [← List.append_nil (tensor_bytes E t)]
    exact hr
  · intro h0
    subst h0
    exact hx (fun v hv => by cases hv)

/-- Witness of C3: the 2x2 matrix `demoMatrix`. -/
theorem tensor_round_trip_witness :
    ∃ out r, write_Tensor demoElementType [] (some demoMatrix) = some out ∧
      read_Tensor demoElementType ⟨out, true⟩ none = some (⟨[], true⟩, r) ∧
      Tensor.same demoElementType (some demoMatrix) r ∧
      ((some demoMatrix : Tensor DemoType) = none → r = none) ∧
      ((∀ v, some demoMatrix = some v → v.memory.length = v.get_byte_size demoElementType) →
        r = some demoMatrix) :=
  tensor_round_trip demoElementType demoElementType_inverse (some demoMatrix) demoMatrix_plain

/-- C9: for tensors `t1` and `t2`, each uninitialized or valid and without gaps, written one
after the other to an empty stream, the first read into a fresh destination returns `t1` and
leaves exactly the encoding of `t2` unread, and the second read returns `t2` and leaves nothing
unread: the two encodings neither overlap nor leave a gap. -/
theorem sequential_tensor_decoding {τ : Type} (E : ElementType τ)
    (hE : ∀ ty, E.of_string (E.to_string ty) = some ty) (t1 t2 : Tensor τ)
    (h1 : t1.plain E) (h2 : t2.plain E) :
    ∃ e1 e2 r1 r2, write_Tensor E [] t1 = some e1 ∧ write_Tensor E [] t2 = some e2 ∧
      write_Tensor E e1 t2 = some (e1 ++ e2) ∧
      read_Tensor E ⟨e1 ++ e2, true⟩ none = some (⟨e2, true⟩, r1) ∧
      read_Tensor E ⟨e2, true⟩ none = some (⟨[], true⟩, r2) ∧
      Tensor.same E t1 r1 ∧ Tensor.same E t2 r2 ∧
      ((∀ v, t1 = some v → v.memory.length = v.get_byte_size E) → r1 = t1) ∧
      ((∀ v, t2 = some v → v.memory.length = v.get_byte_size E) → r2 = t2) := by
  obtain ⟨r1, hr1, hs1, hx1⟩ := read_tensor_bytes E hE t1 h1 (tensor_bytes E t2)
  obtain ⟨r2, hr2, hs2, hx2⟩ := read_tensor_bytes E hE t2 h2 []
  refine ⟨tensor_bytes E t1, tensor_bytes E t2, r1, r2, ?_, ?_, ?_, hr1, ?_, hs1, hs2, hx1, hx2⟩
  · rw [write_Tensor_eq, List.nil_append]
  · rw [write_Tensor_eq, List.nil_append]
  · rw [write_Tensor_eq]
  · rw [← List.append_nil (tensor_bytes E t2)]
    exact hr2

/-- Witness of C9: an uninitialized tensor followed by the matrix `demoMatrix`. -/
theorem sequential_tensor_decoding_witness :
    ∃ e1 e2 r1 r2, write_Tensor demoElementType [] none = some e1 ∧
      write_Tensor demoElementType [] (some demoMatrix) = some e2 ∧
      write_Tensor demoElementType e1 (some demoMatrix) = some (e1 ++ e2) ∧
      read_Tensor demoElementType ⟨e1 ++ e2, true⟩ none = some (⟨e2, true⟩, r1) ∧
      read_Tensor demoElementType ⟨e2, true⟩ none = some (⟨[], true⟩, r2) ∧
      Tensor.same demoElementType none r1 ∧ Tensor.same demoElementType (some demoMatrix) r2 ∧
      ((∀ v, (none : Tensor DemoType) = some v →
          v.memory.length = v.get_byte_size demoElementType) → r1 = none) ∧
      ((∀ v, some demoMatrix = some v → v.memory.length = v.get_byte_size demoElementType) →
        r2 = some demoMatrix) :=
  sequential_tensor_decoding demoElementType demoElementType_inverse none (some demoMatrix)
    (none_plain demoElementType) demoMatrix_plain

/-! ## Graph-boundary descriptor -/

theorem write_unordered_set_eq (p : OStream) (l : List Str) :
    write_unordered_set p l
      = p ++ (toBytes 8 l.length ++ l.flatMap (fun s => toBytes 8 s.length ++ s)) := by
  have h : (fun (stream : OStream) (el : Str) => write_string stream el)
      = fun stream el => stream ++ (toBytes 8 el.length ++ el) := by
    funext stream el
    exact write_string_eq stream el
  simp only [write_unordered_set, h, foldl_append_flatMap, write_size_t_eq, List.append_assoc]

theorem read_unordered_set_loop_append (U : UnorderedSet) (l acc : List Str) (rest : List Byte)
    (h : ∀ s ∈ l, s.length ≤ string_max_size) :
    ∃ out, read_unordered_set_loop U l.length
        ⟨l.flatMap (fun s => toBytes 8 s.length ++ s) ++ rest, true⟩ acc
          = some (⟨rest, true⟩, out) ∧
      ∀ y, y ∈ out ↔ y ∈ acc ∨ y ∈ l := by
  induction l generalizing acc with
  | nil => exact ⟨acc, by simp [read_unordered_set_loop], by simp⟩
  | cons s ss ih =>
    have hs := h s (List.mem_cons_self _ _)
    have hss : ∀ r ∈ ss, r.length ≤ string_max_size :=
      fun r hr => h r (List.mem_cons_of_mem _ hr)
    obtain ⟨out, ho, hmem⟩ := ih (U.insert s acc) hss
    refine ⟨out, ?_, ?_⟩
    · simp only [List.length_cons, read_unordered_set_loop, List.flatMap_cons,
        List.append_assoc, read_string_append _ _ _ hs]
      exact ho
    · intro y
      rw [hmem y, U.mem_insert, List.mem_cons]
      tauto

theorem read_unordered_set_append (U : UnorderedSet) (l var : List Str) (rest : List Byte)
    (hk : l.length < SIZE_MOD) (h : ∀ s ∈ l, s.length ≤ string_max_size) :
    ∃ out, read_unordered_set U
        ⟨toBytes 8 l.length ++ (l.flatMap (fun s => toBytes 8 s.length ++ s) ++ rest), true⟩ var
          = some (⟨rest, true⟩, out) ∧
      ∀ y, y ∈ out ↔ y ∈ l := by
  obtain ⟨out, ho, hmem⟩ := read_unordered_set_loop_append U l [] rest h
  refine ⟨out, ?_, fun y => by simpa using hmem y⟩
  simp only [read_unordered_set, read_size_t_append _ _ _ hk]
  exact ho

theorem write_Output_eq {τ σ : Type} (E : ElementType τ) (P : PartialShape σ) (p : OStream)
    (port : Output τ σ) :
    write_Output E P p port
      = p ++ (toBytes 8 (E.to_string port.element_type).length ++ (E.to_string port.element_type
          ++ (toBytes 8 (P.to_string port.partial_shape).length
          ++ (P.to_string port.partial_shape ++ (toBytes 8 port.names.length
          ++ (port.names.flatMap (fun s => toBytes 8 s.length ++ s) ++ [])))))) := by
  simp only [write_Output, write_string_eq, write_unordered_set_eq, List.append_assoc,
    List.append_nil]

/-- C10: for every graph-boundary port with element type `T`, partial shape `S` and a non-empty
name set `N` (all texts being of a length a `std::string` can have), and external mappings that
map the names of `T` and `S` back to `T` and `S`, reading a `Parameter` from the bytes written
for the port succeeds, consumes them all, and yields a vertex of element type `T`, of partial
shape `S` (so its shape string is that of `S`), whose output names are exactly the members
of `N`, whatever the iteration order of the set implementation. -/
theorem input_placeholder_fidelity {τ σ : Type} (E : ElementType τ) (P : PartialShape σ)
    (U : UnorderedSet) (port : Output τ σ) (dest : Option (Parameter τ σ))
    (hE : E.of_string (E.to_string port.element_type) = some port.element_type)
    (hP : P.of_string (P.to_string port.partial_shape) = some port.partial_shape)
    (hne : port.names ≠ [])
    (hT : (E.to_string port.element_type).length ≤ string_max_size)
    (hS : (P.to_string port.partial_shape).length ≤ string_max_size)
    (hk : port.names.length < SIZE_MOD)
    (hN : ∀ n ∈ port.names, n.length ≤ string_max_size) :
    ∃ v, read_Parameter E P U ⟨write_Output E P [] port, true⟩ dest = some (⟨[], true⟩, some v) ∧
      v.element_type = port.element_type ∧
      v.partial_shape = port.partial_shape ∧
      P.to_string v.partial_shape = P.to_string port.partial_shape ∧
      ∀ n, n ∈ v.names ↔ n ∈ port.names := by
  obtain ⟨out, ho, hmem⟩ := read_unordered_set_append U port.names [] [] hk hN
  have hout : out ≠ [] := by
    intro h0
    obtain ⟨n, ns, hn⟩ := List.exists_cons_of_ne_nil hne
    have : n ∈ out := (hmem n).2 (by rw [hn]; exact List.mem_cons_self _ _)
    rw [h0] at this
    exact List.not_mem_nil _ this
  obtain ⟨first, tl, hft⟩ := List.exists_cons_of_ne_nil hout
  refine ⟨{ element_type := port.element_type, partial_shape := port.partial_shape,
            friendly_name := first, names := out }, ?_, rfl, rfl, rfl, hmem⟩
  unfold read_Parameter
  rw [write_Output_eq, List.nil_append, read_string_append _ _ _ hT]
  simp only []
  rw [read_string_append _ _ _ hS]
  simp only []
  rw [ho]
  simp only [hE, hP, hft, List.head?_cons]

/-- Witness of C10: the port `demoPort` with names `a`, `b` and shape text `[?,3]`. -/
theorem input_placeholder_fidelity_witness :
    ∃ v, read_Parameter demoElementType demoPartialShape frontInsert
        ⟨write_Output demoElementType demoPartialShape [] demoPort, true⟩ none
          = some (⟨[], true⟩, some v) ∧
      v.element_type = demoPort.element_type ∧
      v.partial_shape = demoPort.partial_shape ∧
      demoPartialShape.to_string v.partial_shape
        = demoPartialShape.to_string demoPort.partial_shape ∧
      ∀ n, n ∈ v.names ↔ n ∈ demoPort.names :=
  input_placeholder_fidelity demoElementType demoPartialShape frontInsert demoPort none
    rfl rfl (by decide) (by decide) (by decide) (by decide) (by decide)

/-- The three reads shared by both placeholder readers, on the bytes of a descriptor. -/
theorem read_descriptor_fields (U : UnorderedSet) (tstr sstr : Str) (names : List Str)
    (rest : List Byte) (hT : tstr.length ≤ string_max_size)
    (hS : sstr.length ≤ string_max_size) (hk : names.length < SIZE_MOD)
    (hN : ∀ n ∈ names, n.length ≤ string_max_size) :
    ∃ out, (∀ n, n ∈ out ↔ n ∈ names) ∧
      read_string
          ⟨write_string [] tstr ++ write_string [] sstr ++ write_unordered_set [] names ++ rest,
            true⟩ []
        = some (⟨write_string [] sstr ++ write_unordered_set [] names ++ rest, true⟩, tstr) ∧
      read_string ⟨write_string [] sstr ++ write_unordered_set [] names ++ rest, true⟩ []
        = some (⟨write_unordered_set [] names ++ rest, true⟩, sstr) ∧
      read_unordered_set U ⟨write_unordered_set [] names ++ rest, true⟩ []
        = some (⟨rest, true⟩, out) := by
  obtain ⟨out, ho, hmem⟩ := read_unordered_set_append U names [] rest hk hN
  refine ⟨out, hmem, ?_, ?_, ?_⟩
  · have h := read_string_append tstr []
      (write_string [] sstr ++ write_unordered_set [] names ++ rest) hT
    simpa [write_string_eq, List.append_assoc] using h
  · have h := read_string_append sstr [] (write_unordered_set [] names ++ rest) hS
    simpa [write_string_eq, List.append_assoc] using h
  · simpa [write_unordered_set_eq, List.append_assoc] using ho

/-- C11: for every persisted descriptor with a type name that denotes `T`, a shape text that
parses to `S` and a non-empty name set `N`, `read(stream, std::shared_ptr<ov::Node>&)` succeeds,
stops at the end of the descriptor and yields a `Result` built on a constant of element type `T`
and shape `[1]`, whatever `S` is, whose output 0 carries a descriptor of element type `T`,
partial shape `S` and exactly the names of `N`. -/
theorem output_placeholder_reconstruction {τ σ : Type} (E : ElementType τ) (P : PartialShape σ)
    (U : UnorderedSet) (tstr sstr : Str) (names : List Str) (T : τ) (S : σ) (rest : List Byte)
    (dest : Option (Result τ σ))
    (hE : E.of_string tstr = some T) (hP : P.of_string sstr = some S) (hne : names ≠ [])
    (hT : tstr.length ≤ string_max_size) (hS : sstr.length ≤ string_max_size)
    (hk : names.length < SIZE_MOD) (hN : ∀ n ∈ names, n.length ≤ string_max_size) :
    ∃ v, read_Node E P U
        ⟨write_string [] tstr ++ write_string [] sstr ++ write_unordered_set [] names ++ rest,
          true⟩ dest = some (⟨rest, true⟩, some v) ∧
      v.input = { element_type := T, shape := [1] } ∧
      v.output_tensor.element_type = T ∧ v.output_tensor.partial_shape = S ∧
      ∀ n, n ∈ v.output_tensor.names ↔ n ∈ names := by
  obtain ⟨out, hmem, h1, h2, h3⟩ := read_descriptor_fields U tstr sstr names rest hT hS hk hN
  have hout : out ≠ [] := by
    intro h0
    obtain ⟨n, ns, hn⟩ := List.exists_cons_of_ne_nil hne
    have : n ∈ out := (hmem n).2 (by rw [hn]; exact List.mem_cons_self _ _)
    rw [h0] at this
    exact List.not_mem_nil _ this
  obtain ⟨first, tl, hft⟩ := List.exists_cons_of_ne_nil hout
  refine ⟨{ input := { element_type := T, shape := [1] },
            output_tensor := { element_type := T, partial_shape := S, names := out },
            friendly_name := first }, ?_, rfl, rfl, rfl, hmem⟩
  unfold read_Node
  rw [h1]
  simp only []
  rw [h2]
  simp only []
  rw [h3]
  simp only [hE, hP, hft, List.head?_cons]

/-- Witness of C11: the descriptor of `demoPort`, followed by one more byte. -/
theorem output_placeholder_reconstruction_witness :
    ∃ v, read_Node demoElementType demoPartialShape frontInsert
        ⟨write_string [] [117, 56] ++ write_string [] [91, 63, 44, 51, 93]
          ++ write_unordered_set [] [[97], [98]] ++ [7], true⟩ none
          = some (⟨[7], true⟩, some v) ∧
      v.input = { element_type := DemoType.u8, shape := [1] } ∧
      v.output_tensor.element_type = DemoType.u8 ∧
      v.output_tensor.partial_shape = [91, 63, 44, 51, 93] ∧
      ∀ n, n ∈ v.output_tensor.names ↔ n ∈ [[97], [98]] :=
  output_placeholder_reconstruction demoElementType demoPartialShape frontInsert [117, 56]
    [91, 63, 44, 51, 93] [[97], [98]] DemoType.u8 [91, 63, 44, 51, 93] [7] none
    rfl rfl (by decide) (by decide) (by decide) (by decide) (by decide)

/-- On a descriptor that persists an empty name set neither reader is defined. -/
theorem empty_name_set_undefined :
    read_Parameter demoElementType demoPartialShape frontInsert
      ⟨write_string [] [117, 56] ++ write_string [] [91, 93] ++ write_unordered_set [] [],
        true⟩ none = none ∧
    read_Node demoElementType demoPartialShape frontInsert
      ⟨write_string [] [117, 56] ++ write_string [] [91, 93] ++ write_unordered_set [] [],
        true⟩ none = none := by
  constructor <;> decide

/-! ## Configuration object -/

theorem read_Config_append {κ : Type} (C : Config κ) (str : Str) (rest : List Byte) (dest : κ)
    (h : str.length ≤ string_max_size) :
    read_Config C ⟨write_string [] str ++ rest, true⟩ dest
      = (C.fromString dest str).map (fun d => (⟨rest, true⟩, d)) := by
  have h1 := read_string_append str [] rest h
  unfold read_Config
  rw [write_string_eq, List.nil_append, List.append_assoc, h1]
  simp only []
  cases hf : C.fromString dest str <;> simp

/-- C13: for every configuration `c`, `write(stream, c)` emits exactly the Text encoding of
`c.toString()`, and `read(stream, dest)` on those bytes hands `dest.fromString` a string
identical to `c.toString()` and stops at the end of the encoding; hence, when `fromString`
accepts that string and `toString` after `fromString` returns the parsed string, the decoded
configuration has the to-string form of `c`. -/
theorem configuration_round_trip {κ : Type} (C : Config κ) (c dest d : κ) (p : OStream)
    (rest : List Byte) (hlen : (C.toString c).length ≤ string_max_size)
    (hparse : C.fromString dest (C.toString c) = some d)
    (hstable : ∀ x str y, C.fromString x str = some y → C.toString y = str) :
    write_Config C p c = write_string p (C.toString c) ∧
    (∀ dest0, read_Config C ⟨write_Config C [] c ++ rest, true⟩ dest0
      = (C.fromString dest0 (C.toString c)).map (fun x => (⟨rest, true⟩, x))) ∧
    read_Config C ⟨write_Config C [] c ++ rest, true⟩ dest = some (⟨rest, true⟩, d) ∧
    C.toString d = C.toString c := by
  refine ⟨rfl, fun dest0 => read_Config_append C _ rest dest0 hlen, ?_,
    hstable _ _ _ hparse⟩
  have h := read_Config_append C (C.toString c) rest dest hlen
  rw [hparse] at h
  exact h

/-- Witness of C13: the configuration with the text `device="NPU" mode="fast"`. -/
theorem configuration_round_trip_witness :
    write_Config demoConfig [] demoConfigText
      = write_string [] (demoConfig.toString demoConfigText) ∧
    (∀ dest0, read_Config demoConfig ⟨write_Config demoConfig [] demoConfigText ++ [], true⟩ dest0
      = (demoConfig.fromString dest0 (demoConfig.toString demoConfigText)).map
          (fun x => (⟨[], true⟩, x))) ∧
    read_Config demoConfig ⟨write_Config demoConfig [] demoConfigText ++ [], true⟩ []
      = some (⟨[], true⟩, demoConfigText) ∧
    demoConfig.toString demoConfigText = demoConfig.toString demoConfigText :=
  configuration_round_trip demoConfig demoConfigText [] demoConfigText [] [] (by decide) rfl
    (by
      intro x str y h
      simp only [demoConfig, Option.some.injEq] at h
      exact h.symm)

/-! ## The assertion of the tensor writer -/

/-- C14: for every initialized tensor `v`, without gaps or strided, the local `tensor` is
initialized when control reaches `NPUW_ASSERT(tensor)`, so the assertion holds and the write
returns a stream; for an uninitialized tensor the writer returns right after the flag, before
the assertion. -/
theorem tensor_write_assertion_holds {τ : Type} (E : ElementType τ) (p : OStream) :
    (∀ v : TensorImpl τ,
      write_Tensor E p (some v)
        = (if (asserted_tensor E v).isSome then
            some (OStream.write
              (write_size_t
                (write_vector (write_string (write_bool p true) (E.to_string v.element_type))
                  v.shape)
                (v.get_byte_size E))
              v.memory (v.get_byte_size E))
          else none) ∧
      (asserted_tensor E v).isSome = true ∧ (write_Tensor E p (some v)).isSome = true) ∧
    write_Tensor E p (none : Tensor τ) = some (write_bool p false) := by
  refine ⟨fun v => ⟨rfl, ?_, ?_⟩, rfl⟩
  · unfold asserted_tensor
    split <;> rfl
  · rw [write_Tensor_some]
    rfl

/-! ## Text on a truncated stream -/

/-- Reading a string whose length field holds a value `N` that `resize` cannot reach, because
it exceeds `max_size()` or because the memory is not to be had: an error is raised. -/
theorem read_string_resize_fails (alloc : Nat → Bool) (N : Nat) (content dest : Str)
    (hlt : N < SIZE_MOD) (h : string_max_size < N ∨ alloc N = false) :
    read_string_in alloc ⟨toBytes 8 N ++ content, true⟩ dest = none := by
  have h1 := IStream.read_full (toBytes 8 N) content (toBytes 8 0) (by simp [toBytes_length])
  rw [toBytes_length] at h1
  simp only [read_string_in, h1, ofBytes_toBytes_size_t _ hlt]
  rw [if_neg]
  rintro ⟨h2, h3⟩
  cases h with
  | inl h => omega
  | inr h => rw [h] at h3; exact Bool.noConfusion h3

theorem flatMap_toBytes_length (l : List Nat) : (l.flatMap (toBytes 8)).length = 8 * l.length := by
  induction l with
  | nil => rfl
  | cons d ds ih =>
    simp only [List.flatMap_cons, List.length_append, toBytes_length, ih, List.length_cons]
    omega

/-- C16: for every valid tensor with an element type name of length `L`, a shape of rank `r`
and the byte size `B`, `write(stream, t)` appends, in this order, the flag `true` (one byte),
the Text encoding of the type name, the length-prefixed dimensions, the scalar `B`, and then
exactly `B` payload bytes; the byte size field reads back as the number of payload bytes, and
`1 + (8 + L) + (8 + 8 * r) + 8 + B` bytes are appended in all. -/
theorem valid_tensor_layout {τ : Type} (E : ElementType τ) (p : OStream) (v : TensorImpl τ)
    (hv : v.valid E) :
    ∃ payload, write_Tensor E p (some v)
        = some (p ++ (write_bool [] true ++ (write_string [] (E.to_string v.element_type)
            ++ (write_vector [] v.shape ++ (write_size_t [] (v.get_byte_size E) ++ payload))))) ∧
      payload = v.memory.take (v.get_byte_size E) ∧
      payload.length = v.get_byte_size E ∧
      ofBytes (write_size_t [] (v.get_byte_size E)) = payload.length ∧
      (write_bool [] true).length = 1 ∧
      (write_string [] (E.to_string v.element_type)).length
        = 8 + (E.to_string v.element_type).length ∧
      (write_vector [] v.shape).length = 8 + 8 * v.shape.length ∧
      (write_size_t [] (v.get_byte_size E)).length = 8 ∧
      (write_bool [] true ++ (write_string [] (E.to_string v.element_type)
          ++ (write_vector [] v.shape ++ (write_size_t [] (v.get_byte_size E) ++ payload)))).length
        = 1 + (8 + (E.to_string v.element_type).length) + (8 + 8 * v.shape.length) + 8
          + v.get_byte_size E := by
  obtain ⟨_, _, _, hb, hm⟩ := hv
  have hlen : (v.memory.take (v.get_byte_size E)).length = v.get_byte_size E := by
    rw [List.length_take]; omega
  refine ⟨v.memory.take (v.get_byte_size E), ?_, rfl, hlen, ?_, ?_, ?_, ?_, ?_, ?_⟩
  · rw [write_Tensor_some]
    simp [tensor_body, write_bool_eq, write_string_eq, write_vector_eq, write_size_t_eq,
      boolByte]
  · rw [write_size_t_eq, List.nil_append, ofBytes_toBytes_size_t _ hb, hlen]
  · simp [write_bool_eq]
  · simp [write_string_eq, toBytes_length]
  · rw [write_vector_eq, List.nil_append, List.length_append, toBytes_length,
      flatMap_toBytes_length]
  · simp [write_size_t_eq, toBytes_length]
  · simp only [write_bool_eq, write_string_eq, write_vector_eq, write_size_t_eq,
      List.nil_append, List.length_append, List.length_singleton, toBytes_length,
      flatMap_toBytes_length, hlen]
    omega

/-- Witness of C16: the strided view `demoView` (`L = 2`, `r = 2`, `B = 4`). -/
theorem valid_tensor_layout_witness :
    ∃ payload, write_Tensor demoElementType [9] (some demoView)
        = some ([9] ++ (write_bool [] true
            ++ (write_string [] (demoElementType.to_string demoView.element_type)
            ++ (write_vector [] demoView.shape
            ++ (write_size_t [] (demoView.get_byte_size demoElementType) ++ payload))))) ∧
      payload = demoView.memory.take (demoView.get_byte_size demoElementType) ∧
      payload.length = demoView.get_byte_size demoElementType ∧
      ofBytes (write_size_t [] (demoView.get_byte_size demoElementType)) = payload.length ∧
      (write_bool [] true).length = 1 ∧
      (write_string [] (demoElementType.to_string demoView.element_type)).length
        = 8 + (demoElementType.to_string demoView.element_type).length ∧
      (write_vector [] demoView.shape).length = 8 + 8 * demoView.shape.length ∧
      (write_size_t [] (demoView.get_byte_size demoElementType)).length = 8 ∧
      (write_bool [] true ++ (write_string [] (demoElementType.to_string demoView.element_type)
          ++ (write_vector [] demoView.shape
          ++ (write_size_t [] (demoView.get_byte_size demoElementType) ++ payload)))).length
        = 1 + (8 + (demoElementType.to_string demoView.element_type).length)
          + (8 + 8 * demoView.shape.length) + 8 + demoView.get_byte_size demoElementType :=
  valid_tensor_layout demoElementType [9] demoView
    ⟨by decide, by decide, by decide, by decide, by decide⟩

/-! ## Cursor of the spatial reader -/

theorem flatMap_Param_length (ps : List Spatial.Param) :
    (ps.flatMap (fun q => toBytes 8 q.idx ++ toBytes 8 q.dim)).length = 16 * ps.length := by
  induction ps with
  | nil => rfl
  | cons q qs ih =>
    simp only [List.flatMap_cons, List.length_append, toBytes_length, ih, List.length_cons]
    omega

/-- C17: for every spatial descriptor `s` with `k` parameters and every byte sequence `rest`,
`read(stream, Spatial)` on `write(s) ++ rest` reads the count `k`, runs its loop `k` times and
reads the five scalars, each read receiving the scalar the writer wrote at that place, and leaves
the stream good with exactly `rest` unread: it consumes the `8 + 16 * k + 40` bytes written. -/
theorem spatial_cursor_agreement (s dest : Spatial) (rest : List Byte) (h : s.wf) :
    (read_Spatial ⟨write_Spatial [] s ++ rest, true⟩ dest).1 = ⟨rest, true⟩ ∧
    (read_size_t ⟨write_Spatial [] s ++ rest, true⟩ 0).2 = s.params.length ∧
    read_Spatial_spat ⟨write_Spatial [] s ++ rest, true⟩ = (⟨rest, true⟩, s) ∧
    (write_Spatial [] s).length = 8 + 16 * s.params.length + 40 ∧
    (write_Spatial [] s ++ rest).length = (8 + 16 * s.params.length + 40) + rest.length := by
  have hs := read_Spatial_spat_append s rest h
  have hl : (write_Spatial [] s).length = 8 + 16 * s.params.length + 40 := by
    simp only [write_Spatial_eq, List.nil_append, List.length_append, toBytes_length,
      flatMap_Param_length]
    omega
  refine ⟨?_, ?_, hs, hl, ?_⟩
  · simp only [read_Spatial, hs]
  · rw [write_Spatial_eq, List.nil_append, List.append_assoc, read_size_t_append _ _ _ h.1]
  · rw [List.length_append, hl]

/-- Witness of C17: the descriptor `demoSpatial` (`k = 1`) in front of two more bytes. -/
theorem spatial_cursor_agreement_witness :
    (read_Spatial ⟨write_Spatial [] demoSpatial ++ [7, 8], true⟩ Spatial.init).1
      = ⟨[7, 8], true⟩ ∧
    (read_size_t ⟨write_Spatial [] demoSpatial ++ [7, 8], true⟩ 0).2
      = demoSpatial.params.length ∧
    read_Spatial_spat ⟨write_Spatial [] demoSpatial ++ [7, 8], true⟩
      = (⟨[7, 8], true⟩, demoSpatial) ∧
    (write_Spatial [] demoSpatial).length = 8 + 16 * demoSpatial.params.length + 40 ∧
    (write_Spatial [] demoSpatial ++ [7, 8]).length
      = (8 + 16 * demoSpatial.params.length + 40) + ([7, 8] : List Byte).length :=
  spatial_cursor_agreement demoSpatial Spatial.init [7, 8]
    (by simp [Spatial.wf, demoSpatial, SIZE_MOD])

/-! ## Append-only writes -/

theorem appends_of_eq (p out enc : List Byte) (h : out = p ++ enc) : appends p out enc := by
  subst h
  exact ⟨rfl, List.take_left _ _, by simp⟩

/-- C18: for every write operation of the codec (stream position, string, bool, spatial
descriptor, tensor, configuration, graph-boundary port), every value and every prior stream
content `p`, the stream content after the call is `p` followed by the bytes the same call
appends to an empty stream, which depend on the written value only; `p` stays the beginning of
the stream and the stream never gets shorter. -/
theorem writes_append_only {τ σ κ : Type} (E : ElementType τ) (P : PartialShape σ)
    (C : Config κ) (p : OStream) :
    (∀ var, appends p (write_streampos p var) (write_streampos [] var)) ∧
    (∀ var, appends p (write_string p var) (write_string [] var)) ∧
    (∀ var, appends p (write_bool p var) (write_bool [] var)) ∧
    (∀ var, appends p (write_Spatial p var) (write_Spatial [] var)) ∧
    (∀ var : Tensor τ, ∃ out enc, write_Tensor E p var = some out ∧
      write_Tensor E [] var = some enc ∧ appends p out enc) ∧
    (∀ var, appends p (write_Config C p var) (write_Config C [] var)) ∧
    (∀ var, appends p (write_Output E P p var) (write_Output E P [] var)) := by
  refine ⟨?_, ?_, ?_, ?_, ?_, ?_, ?_⟩
  · intro var
    exact appends_of_eq _ _ _ (by simp [write_streampos, OStream.write])
  · intro var
    exact appends_of_eq _ _ _ (by rw [write_string_eq, write_string_eq, List.nil_append])
  · intro var
    exact appends_of_eq _ _ _ (by rw [write_bool_eq, write_bool_eq, List.nil_append])
  · intro var
    exact appends_of_eq _ _ _ (by rw [write_Spatial_eq, write_Spatial_eq, List.nil_append])
  · intro var
    exact ⟨p ++ tensor_bytes E var, tensor_bytes E var, write_Tensor_eq E p var,
      by rw [write_Tensor_eq, List.nil_append], appends_of_eq _ _ _ rfl⟩
  · intro var
    exact appends_of_eq _ _ _
      (by simp only [write_Config]; rw [write_string_eq, write_string_eq, List.nil_append])
  · intro var
    exact appends_of_eq _ _ _ (by rw [write_Output_eq, write_Output_eq, List.nil_append])

end ov.npuw.s11n
